import Mathlib

/-!
# Verification of the request-batching middleware

Shallow embedding of `batchRequestMiddleware` and its helpers
(`endpointSupportsBatch`, `addRequestToBatch`, `commitEventually`, `commit`)
from the source file, together with an explicit event-loop semantics.

Modelling conventions, each tied to the source:

* A request (`options`) carries `method`, `path`, `body`, `headers` and the
  caller-supplied grouping tag `batchAs`.  A missing/empty tag is modelled as
  the empty string (both are falsy in the source's `!options.batchAs` test).
* The module-level mutable registry `awaitingBatches` becomes a field of an
  explicit state record `SysState`, together with the set of pending
  `setTimeout` timers, the batch promises, the combined calls handed to
  `apiFetch`, and one record per caller modelling the promise the middleware
  returned to that caller.
* `JSON.stringify([batchAs, method])` is modelled by `jsonStringifyPair`,
  including JSON string escaping of quote/backslash/control characters.
* The source's `clearTimeout(unitOfWork.promise)` passes a Promise object
  where a timer id is expected; `clearTimeout` here is faithful to the
  platform: it cancels a timer only when given a timer id, and is a no-op on
  any other value.  The timer id returned by `setTimeout` is discarded by the
  source, so no `JSVal.timerId` value is ever stored.
* Accessing `unitOfWork.promise` when the batch key is absent from the
  registry throws a `TypeError` in the source; fallible operations therefore
  return `Except JSError _`.
* The event loop is single threaded: an execution is a list of `Event`s
  (request submissions, timer firings, transport settlements) folded over
  `step`.  "Submitted within the time window" means: no `timerFire` event
  occurs between the submissions.
-/

namespace BatchMw

abbrev Resp := String
abbrev Err := String

/-- An outbound request as seen by the middleware (`options` in the source). -/
structure Req where
  method : String
  path : String
  body : String
  headers : String
  batchAs : String
  deriving Repr, DecidableEq, Inhabited

/-- The wire-safe projection of a request sent inside a combined call:
exactly the fields `path`, `body`, `headers` (source: the `.map` in `commit`). -/
structure WireReq where
  path : String
  body : String
  headers : String
  deriving Repr, DecidableEq

/-- `( options ) => ({ path: options.path, body: options.body, headers: options.headers })` -/
def projectRequest (options : Req) : WireReq :=
  { path := options.path, body := options.body, headers := options.headers }

def BATCH_TIME_WINDOW : Nat := 1000

def MAX_BATCH_SIZE : Nat := 20

/-- `pat` is a prefix of `s` (character lists). -/
def startsWithChars : List Char → List Char → Bool
  | _, [] => true
  | [], _ :: _ => false
  | c :: cs, d :: ds => c = d && startsWithChars cs ds

/-- `pat` occurs somewhere in `s`; models `s.indexOf(pat) !== -1`. -/
def containsChars : List Char → List Char → Bool
  | [], pat => startsWithChars [] pat
  | c :: cs, pat => startsWithChars (c :: cs) pat || containsChars cs pat

/-- `path.indexOf( '/v2/template-parts' ) !== -1` -/
def endpointSupportsBatch (path : String) : Bool :=
  containsChars path.toList "/v2/template-parts".toList

/-- JSON escaping of one character inside a string literal
(as performed by `JSON.stringify`). -/
def escChar (c : Char) : List Char :=
  if c = '"' then ['\\', '"']
  else if c = '\\' then ['\\', '\\']
  else if c = '\n' then ['\\', 'n']
  else if c = '\t' then ['\\', 't']
  else if c = '\r' then ['\\', 'r']
  else if c = '\x08' then ['\\', 'b']
  else if c = '\x0c' then ['\\', 'f']
  else [c]

def escList : List Char → List Char
  | [] => []
  | c :: cs => escChar c ++ escList cs

/-- Models `JSON.stringify( [ a, b ] )` for two strings:
`["⟨esc a⟩","⟨esc b⟩"]`. -/
def jsonStringifyPair (a b : String) : String :=
  ⟨'[' :: '"' :: (escList a.toList ++ '"' :: ',' :: '"' ::
    (escList b.toList ++ ['"', ']']))⟩

/-- `JSON.stringify( [ options.batchAs, options.method ] )` as computed by
the middleware. -/
def batchKey (options : Req) : String :=
  jsonStringifyPair options.batchAs options.method

/-- A JavaScript value that can end up in a `Batch.promise` slot or be passed
to `clearTimeout`: `null`, a timer id, or a Promise object (identified by an
id in the model).  The source stores only `null` or a Promise there. -/
inductive JSVal where
  | null
  | timerId (tid : Nat)
  | promiseRef (pid : Nat)
  deriving Repr, DecidableEq

/-- One entry of `awaitingBatches`: `{ promise: null, requests: [] }`. -/
structure Batch where
  promise : JSVal
  requests : List Req
  deriving Repr, DecidableEq

/-- A pending `setTimeout` whose callback runs
`resolve( commit( batchId ) )` for the batch promise `pid`. -/
structure Timer where
  id : Nat
  pid : Nat
  batchId : String
  deriving Repr, DecidableEq

/-- State of a batch promise: still pending, or it has adopted the
`apiFetch` promise of combined call `callId` (after `resolve(commit(...))`). -/
inductive PromiseState where
  | pending
  | adopted (callId : Nat)
  deriving Repr, DecidableEq

/-- What the promise returned to a caller is chained on:
`commit` hands back the `apiFetch` promise directly, `commitEventually`
hands back the batch promise. -/
inductive Awaiting where
  | onCall (callId : Nat)
  | onPromise (pid : Nat)
  deriving Repr, DecidableEq

/-- How a caller's promise settled.  `resolved none` models resolution with
`undefined` (`subResponses[idx]` out of range). -/
inductive Outcome where
  | resolved (r : Option Resp)
  | rejected (e : Err)
  deriving Repr, DecidableEq

/-- The promise `save( batchId ).then( subResponses => subResponses[ requestIdx ] )`
returned to one caller. -/
structure Caller where
  req : Req
  batchId : String
  idx : Nat
  waitsOn : Awaiting
  outcome : Option Outcome
  deriving Repr, DecidableEq

/-- `TypeError: cannot read properties of undefined (reading 'promise')`,
thrown by `commit` when the batch key is absent. -/
inductive JSError where
  | typeError (batchId : String)
  deriving Repr, DecidableEq

/-- The combined request handed to `apiFetch` by `commit`. -/
structure CombinedCall where
  id : Nat
  path : String
  method : String
  validation : String
  requests : List WireReq
  deriving Repr, DecidableEq

/-- Settlement of a combined call's transport promise. -/
inductive TransportResult where
  | ok (responses : List Resp)
  | error (e : Err)
  deriving Repr, DecidableEq

/-- The whole mutable world of the middleware module plus the event loop
bookkeeping (timers, promises, issued combined calls, callers, calls to the
`next` handler, uncaught exceptions, id counters). -/
structure SysState where
  awaitingBatches : List (String × Batch)
  timers : List Timer
  promises : List (Nat × PromiseState)
  sent : List CombinedCall
  callOutcomes : List (Nat × TransportResult)
  callers : List Caller
  nextCalls : List Req
  uncaught : List JSError
  nextTimerId : Nat
  nextPromiseId : Nat
  nextCallId : Nat
  deriving Repr

def initState : SysState :=
  { awaitingBatches := [], timers := [], promises := [], sent := [],
    callOutcomes := [], callers := [], nextCalls := [], uncaught := [],
    nextTimerId := 0, nextPromiseId := 0, nextCallId := 0 }

def lookupBatch : List (String × Batch) → String → Option Batch
  | [], _ => none
  | (k, b) :: rest, key => if k = key then some b else lookupBatch rest key

def setBatch : List (String × Batch) → String → Batch → List (String × Batch)
  | [], key, b => [(key, b)]
  | (k, b0) :: rest, key, b =>
      if k = key then (key, b) :: rest else (k, b0) :: setBatch rest key b

/-- `delete awaitingBatches[ batchId ]` -/
def removeBatch (m : List (String × Batch)) (key : String) :
    List (String × Batch) :=
  m.filter (fun p => p.1 != key)

def lookupPromise : List (Nat × PromiseState) → Nat → Option PromiseState
  | [], _ => none
  | (k, v) :: rest, pid => if k = pid then some v else lookupPromise rest pid

def setPromise : List (Nat × PromiseState) → Nat → PromiseState →
    List (Nat × PromiseState)
  | [], _, _ => []
  | (k, v) :: rest, pid, ps =>
      if k = pid then (pid, ps) :: rest else (k, v) :: setPromise rest pid ps

/-- Platform `clearTimeout`: cancels a pending timer when given its timer id,
and silently does nothing on any other value (in particular on a Promise
object — which is what the source passes to it). -/
def clearTimeout (timers : List Timer) (v : JSVal) : List Timer :=
  match v with
  | JSVal.timerId tid => timers.filter (fun t => t.id != tid)
  | _ => timers

/-- Source `addRequestToBatch`: create the batch on first use, push the
options, return `requests.length - 1`. -/
def addRequestToBatch (s : SysState) (batchId : String) (options : Req) :
    SysState × Nat :=
  let b0 := match lookupBatch s.awaitingBatches batchId with
    | some b => b
    | none => { promise := JSVal.null, requests := [] }
  let b1 := { b0 with requests := b0.requests ++ [options] }
  ({ s with awaitingBatches := setBatch s.awaitingBatches batchId b1 },
   b1.requests.length - 1)

/-- The `apiFetch` call issued by `commit`: records the combined request as
sent and returns the id of its transport promise. -/
def apiFetchBatch (s : SysState) (reqs : List WireReq) : SysState × Nat :=
  let call : CombinedCall :=
    { id := s.nextCallId, path := "/wp/__experimental/batch",
      method := "POST", validation := "require-all-validate",
      requests := reqs }
  ({ s with sent := s.sent ++ [call], nextCallId := s.nextCallId + 1 },
   call.id)

/-- Source `commit`: pop the unit of work, `clearTimeout` its (promise!)
handle, project the requests and issue the combined `apiFetch` call.  When
the key is absent, `awaitingBatches[batchId]` is `undefined` and reading
`.promise` from it throws a `TypeError`. -/
def commit (s : SysState) (batchId : String) : SysState × Except JSError Nat :=
  match lookupBatch s.awaitingBatches batchId with
  | none =>
      ({ s with awaitingBatches := removeBatch s.awaitingBatches batchId },
       Except.error (JSError.typeError batchId))
  | some unitOfWork =>
      let s1 := { s with
        awaitingBatches := removeBatch s.awaitingBatches batchId }
      let s2 := { s1 with timers := clearTimeout s1.timers unitOfWork.promise }
      let reqs := unitOfWork.requests.map projectRequest
      let r := apiFetchBatch s2 reqs
      (r.1, Except.ok r.2)

/-- Source `commitEventually`: the first request into an empty batch creates
the batch promise and schedules the flush timer; later requests reuse the
already stored promise. -/
def commitEventually (s : SysState) (batchId : String) :
    SysState × Except JSError Nat :=
  match lookupBatch s.awaitingBatches batchId with
  | none => (s, Except.error (JSError.typeError batchId))
  | some batch =>
      match batch.promise with
      | JSVal.promiseRef pid => (s, Except.ok pid)
      | _ =>
          let pid := s.nextPromiseId
          let tid := s.nextTimerId
          let s1 := { s with
            promises := s.promises ++ [(pid, PromiseState.pending)],
            timers := s.timers ++ [Timer.mk tid pid batchId],
            nextPromiseId := pid + 1,
            nextTimerId := tid + 1 }
          let s2 := { s1 with
            awaitingBatches := setBatch s1.awaitingBatches batchId
              { batch with promise := JSVal.promiseRef pid } }
          (s2, Except.ok pid)

/-- Result of one middleware invocation: the value returned by `next`
(ineligible path), the promise returned to a batched caller, or a
synchronously thrown exception. -/
inductive MiddlewareRet (α : Type) where
  | delegated (a : α)
  | batchedPromise (callerId : Nat)
  | threw (e : JSError)
  deriving Repr

/-- Source `batchRequestMiddleware`.  `next` is the next handler of the
middleware chain; the returned caller promise is recorded in `callers`. -/
def batchRequestMiddleware {α : Type} (s : SysState) (options : Req)
    (next : Req → α) : SysState × MiddlewareRet α :=
  if !(["POST", "PUT", "PATCH", "DELETE"].contains options.method) ||
      options.batchAs == "" ||
      !(endpointSupportsBatch options.path) then
    (s, MiddlewareRet.delegated (next options))
  else
    let batchId := batchKey options
    let r := addRequestToBatch s batchId options
    let s1 := r.1
    let requestIdx := r.2
    if MAX_BATCH_SIZE ≤ requestIdx + 1 then
      match commit s1 batchId with
      | (s2, Except.ok callId) =>
          ({ s2 with callers := s2.callers ++
              [{ req := options, batchId := batchId, idx := requestIdx,
                 waitsOn := Awaiting.onCall callId, outcome := none }] },
           MiddlewareRet.batchedPromise s2.callers.length)
      | (s2, Except.error e) => (s2, MiddlewareRet.threw e)
    else
      match commitEventually s1 batchId with
      | (s2, Except.ok pid) =>
          ({ s2 with callers := s2.callers ++
              [{ req := options, batchId := batchId, idx := requestIdx,
                 waitsOn := Awaiting.onPromise pid, outcome := none }] },
           MiddlewareRet.batchedPromise s2.callers.length)
      | (s2, Except.error e) => (s2, MiddlewareRet.threw e)

/-- The eligibility test of the middleware, positively stated. -/
def eligible (o : Req) : Bool :=
  (["POST", "PUT", "PATCH", "DELETE"].contains o.method) &&
  !(o.batchAs == "") &&
  endpointSupportsBatch o.path

/-- The event loop firing a pending timer: the timer is consumed and its
callback `() => resolve( commit( batchId ) )` runs.  If `commit` succeeds the
batch promise adopts the `apiFetch` promise; if `commit` throws, the
exception escapes the callback uncaught and the batch promise is never
resolved. -/
def fireTimer (s : SysState) (tid : Nat) : SysState :=
  match s.timers.find? (fun t => t.id == tid) with
  | none => s
  | some t =>
      let s1 := { s with timers := s.timers.filter (fun t2 => t2.id != tid) }
      match commit s1 t.batchId with
      | (s2, Except.ok callId) =>
          { s2 with promises :=
              setPromise s2.promises t.pid (PromiseState.adopted callId) }
      | (s2, Except.error e) =>
          { s2 with uncaught := s2.uncaught ++ [e] }

/-- `subResponses => subResponses[ requestIdx ]` on resolution; a rejection
passes through the `.then` unchanged. -/
def settleOutcome (idx : Nat) (res : TransportResult) : Outcome :=
  match res with
  | TransportResult.ok rs => Outcome.resolved (rs.get? idx)
  | TransportResult.error e => Outcome.rejected e

/-- Settle one caller when combined call `callId` settles: the caller is
reached either directly (`onCall`) or through a batch promise that adopted
this call. -/
def settleCaller (promises : List (Nat × PromiseState)) (callId : Nat)
    (res : TransportResult) (c : Caller) : Caller :=
  if c.outcome.isSome then c
  else
    match c.waitsOn with
    | Awaiting.onCall cid =>
        if cid = callId then
          { c with outcome := some (settleOutcome c.idx res) }
        else c
    | Awaiting.onPromise pid =>
        match lookupPromise promises pid with
        | some (PromiseState.adopted cid) =>
            if cid = callId then
              { c with outcome := some (settleOutcome c.idx res) }
            else c
        | _ => c

/-- The transport settles combined call `callId` (once): every caller
chained on it settles accordingly. -/
def deliverTransport (s : SysState) (callId : Nat) (res : TransportResult) :
    SysState :=
  if (s.sent.any (fun c => c.id == callId)) &&
     !(s.callOutcomes.any (fun p => p.1 == callId)) then
    { s with callOutcomes := s.callOutcomes ++ [(callId, res)],
             callers := s.callers.map (settleCaller s.promises callId res) }
  else s

/-- One event of the single-threaded event loop. -/
inductive Event where
  | submit (options : Req)
  | timerFire (tid : Nat)
  | transportResolve (callId : Nat) (responses : List Resp)
  | transportReject (callId : Nat) (err : Err)
  deriving Repr

/-- Event-loop small step.  A submission runs the middleware with the
identity continuation and records a delegated request in `nextCalls`. -/
def step (s : SysState) (e : Event) : SysState :=
  match e with
  | Event.submit o =>
      match batchRequestMiddleware s o (fun r => r) with
      | (s1, MiddlewareRet.delegated r) =>
          { s1 with nextCalls := s1.nextCalls ++ [r] }
      | (s1, MiddlewareRet.batchedPromise _) => s1
      | (s1, MiddlewareRet.threw e) =>
          { s1 with uncaught := s1.uncaught ++ [e] }
  | Event.timerFire tid => fireTimer s tid
  | Event.transportResolve cid rs =>
      deliverTransport s cid (TransportResult.ok rs)
  | Event.transportReject cid err =>
      deliverTransport s cid (TransportResult.error err)

/-- Execute a whole event list from the pristine module state. -/
def run (evs : List Event) : SysState := evs.foldl step initState

/-! ## Registry map lemmas -/

lemma lookupBatch_setBatch_self (m : List (String × Batch)) (k : String)
    (b : Batch) : lookupBatch (setBatch m k b) k = some b := by
  induction m with
  | nil => simp [setBatch, lookupBatch]
  | cons p rest ih =>
      obtain ⟨k', b'⟩ := p
      by_cases h : k' = k
      · simp [setBatch, h, lookupBatch]
      · simp [setBatch, h, lookupBatch, ih]

lemma lookupBatch_setBatch_other (m : List (String × Batch)) (k k' : String)
    (b : Batch) (hne : k ≠ k') :
    lookupBatch (setBatch m k b) k' = lookupBatch m k' := by
  induction m with
  | nil => simp [setBatch, lookupBatch, hne]
  | cons p rest ih =>
      obtain ⟨k0, b0⟩ := p
      by_cases h : k0 = k
      · subst h
        simp [setBatch, lookupBatch, hne]
      · simp [setBatch, h, lookupBatch, ih]

lemma removeBatch_nil (k : String) : removeBatch [] k = [] := rfl

lemma removeBatch_cons (k0 : String) (b0 : Batch)
    (rest : List (String × Batch)) (k : String) :
    removeBatch ((k0, b0) :: rest) k =
      if k0 = k then removeBatch rest k else (k0, b0) :: removeBatch rest k := by
  by_cases h : k0 = k
  · simp [removeBatch, List.filter_cons, h]
  · simp [removeBatch, List.filter_cons, h]

lemma lookupBatch_removeBatch_self (m : List (String × Batch)) (k : String) :
    lookupBatch (removeBatch m k) k = none := by
  induction m with
  | nil => simp [removeBatch_nil, lookupBatch]
  | cons p rest ih =>
      obtain ⟨k0, b0⟩ := p
      rw [removeBatch_cons]
      by_cases h : k0 = k
      · simp [h, ih]
      · simp [h, lookupBatch, ih]

lemma lookupBatch_removeBatch_other (m : List (String × Batch)) (k k' : String)
    (hne : k ≠ k') : lookupBatch (removeBatch m k) k' = lookupBatch m k' := by
  induction m with
  | nil => simp [removeBatch_nil]
  | cons p rest ih =>
      obtain ⟨k0, b0⟩ := p
      rw [removeBatch_cons]
      by_cases h : k0 = k
      · subst h
        have hk : ¬ k0 = k' := hne
        simp [lookupBatch, hk, ih]
      · simp [h, lookupBatch, ih]

lemma removeBatch_setBatch (m : List (String × Batch)) (k : String)
    (b : Batch) : removeBatch (setBatch m k b) k = removeBatch m k := by
  induction m with
  | nil => simp [setBatch, removeBatch_nil, removeBatch_cons]
  | cons p rest ih =>
      obtain ⟨k0, b0⟩ := p
      by_cases h : k0 = k
      · subst h
        simp [setBatch, removeBatch_cons, ih]
      · simp [setBatch, h, removeBatch_cons, ih]

lemma setBatch_setBatch (m : List (String × Batch)) (k : String)
    (b b' : Batch) : setBatch (setBatch m k b) k b' = setBatch m k b' := by
  induction m with
  | nil => simp [setBatch]
  | cons p rest ih =>
      obtain ⟨k0, b0⟩ := p
      by_cases h : k0 = k
      · simp [setBatch, h]
      · simp [setBatch, h, ih]

/-! ## Equation lemmas for the operations -/

lemma addRequestToBatch_some (s : SysState) (k : String) (o : Req) (b : Batch)
    (h : lookupBatch s.awaitingBatches k = some b) :
    addRequestToBatch s k o =
      ({ s with awaitingBatches :=
          setBatch s.awaitingBatches k (Batch.mk b.promise (b.requests ++ [o])) },
       b.requests.length) := by
  simp [addRequestToBatch, h]

lemma addRequestToBatch_none (s : SysState) (k : String) (o : Req)
    (h : lookupBatch s.awaitingBatches k = none) :
    addRequestToBatch s k o =
      ({ s with awaitingBatches :=
          setBatch s.awaitingBatches k (Batch.mk JSVal.null [o]) },
       0) := by
  simp [addRequestToBatch, h]

lemma commit_some (s : SysState) (k : String) (b : Batch)
    (h : lookupBatch s.awaitingBatches k = some b) :
    commit s k =
      ({ s with
          awaitingBatches := removeBatch s.awaitingBatches k,
          timers := clearTimeout s.timers b.promise,
          sent := s.sent ++
            [{ id := s.nextCallId, path := "/wp/__experimental/batch",
               method := "POST", validation := "require-all-validate",
               requests := b.requests.map projectRequest }],
          nextCallId := s.nextCallId + 1 },
       Except.ok s.nextCallId) := by
  simp [commit, h, apiFetchBatch]

lemma commit_none (s : SysState) (k : String)
    (h : lookupBatch s.awaitingBatches k = none) :
    commit s k =
      ({ s with awaitingBatches := removeBatch s.awaitingBatches k },
       Except.error (JSError.typeError k)) := by
  simp [commit, h]

lemma commitEventually_reuse (s : SysState) (k : String) (b : Batch) (pid : Nat)
    (h : lookupBatch s.awaitingBatches k = some b)
    (hp : b.promise = JSVal.promiseRef pid) :
    commitEventually s k = (s, Except.ok pid) := by
  simp [commitEventually, h, hp]

lemma commitEventually_fresh (s : SysState) (k : String) (b : Batch)
    (h : lookupBatch s.awaitingBatches k = some b)
    (hp : b.promise = JSVal.null) :
    commitEventually s k =
      ({ s with
          awaitingBatches := setBatch s.awaitingBatches k
            (Batch.mk (JSVal.promiseRef s.nextPromiseId) b.requests),
          promises := s.promises ++ [(s.nextPromiseId, PromiseState.pending)],
          timers := s.timers ++
            [Timer.mk s.nextTimerId s.nextPromiseId k],
          nextPromiseId := s.nextPromiseId + 1,
          nextTimerId := s.nextTimerId + 1 },
       Except.ok s.nextPromiseId) := by
  simp [commitEventually, h, hp]

/-! ## Middleware branch lemmas -/

/-- The guard at the top of the middleware is exactly the negation of
`eligible`. -/
lemma middleware_guard (o : Req) :
    (!(["POST", "PUT", "PATCH", "DELETE"].contains o.method) ||
      o.batchAs == "" ||
      !(endpointSupportsBatch o.path)) = !(eligible o) := by
  unfold eligible
  cases hm : (["POST", "PUT", "PATCH", "DELETE"].contains o.method) <;>
    cases hb : (o.batchAs == "") <;>
      cases he : endpointSupportsBatch o.path <;> simp [hm, hb, he]

/-- Ineligible request: the middleware immediately delegates and touches
nothing. -/
lemma middleware_ineligible {α : Type} (s : SysState) (o : Req)
    (next : Req → α) (h : eligible o = false) :
    batchRequestMiddleware s o next = (s, MiddlewareRet.delegated (next o)) := by
  unfold batchRequestMiddleware
  rw [middleware_guard, h]
  simp

/-- Eligible request into a key with no pending batch: a fresh batch, batch
promise and flush timer are created. -/
lemma middleware_fresh {α : Type} (s : SysState) (o : Req) (next : Req → α)
    (h : eligible o = true)
    (hb : lookupBatch s.awaitingBatches (batchKey o) = none) :
    batchRequestMiddleware s o next =
      ({ s with
          awaitingBatches := setBatch s.awaitingBatches (batchKey o)
            (Batch.mk (JSVal.promiseRef s.nextPromiseId) [o]),
          promises := s.promises ++ [(s.nextPromiseId, PromiseState.pending)],
          timers := s.timers ++
            [Timer.mk s.nextTimerId s.nextPromiseId (batchKey o)],
          nextPromiseId := s.nextPromiseId + 1,
          nextTimerId := s.nextTimerId + 1,
          callers := s.callers ++
            [{ req := o, batchId := batchKey o, idx := 0,
               waitsOn := Awaiting.onPromise s.nextPromiseId,
               outcome := none }] },
       MiddlewareRet.batchedPromise s.callers.length) := by
  unfold batchRequestMiddleware
  rw [middleware_guard, h]
  simp only [Bool.not_true, Bool.false_eq_true, if_false]
  rw [addRequestToBatch_none s (batchKey o) o hb]
  have hsize : ¬ (MAX_BATCH_SIZE ≤ 0 + 1) := by simp [MAX_BATCH_SIZE]
  simp only [hsize, if_false]
  rw [commitEventually_fresh _ _ (Batch.mk JSVal.null [o])
    (lookupBatch_setBatch_self _ _ _) rfl]
  simp [setBatch_setBatch]

/-- Eligible request into a pending batch that stays below the size limit:
the request is appended and the existing batch promise is reused (no new
timer). -/
lemma middleware_warm_small {α : Type} (s : SysState) (o : Req)
    (next : Req → α) (b : Batch) (pid : Nat) (h : eligible o = true)
    (hb : lookupBatch s.awaitingBatches (batchKey o) = some b)
    (hp : b.promise = JSVal.promiseRef pid)
    (hsize : b.requests.length + 1 < MAX_BATCH_SIZE) :
    batchRequestMiddleware s o next =
      ({ s with
          awaitingBatches := setBatch s.awaitingBatches (batchKey o)
            (Batch.mk (JSVal.promiseRef pid) (b.requests ++ [o])),
          callers := s.callers ++
            [{ req := o, batchId := batchKey o, idx := b.requests.length,
               waitsOn := Awaiting.onPromise pid, outcome := none }] },
       MiddlewareRet.batchedPromise s.callers.length) := by
  unfold batchRequestMiddleware
  rw [middleware_guard, h]
  simp only [Bool.not_true, Bool.false_eq_true, if_false]
  rw [addRequestToBatch_some s (batchKey o) o b hb]
  have hsz : ¬ (MAX_BATCH_SIZE ≤ b.requests.length + 1) := Nat.not_le.mpr hsize
  simp only [hsz, if_false]
  rw [commitEventually_reuse _ _ (Batch.mk b.promise (b.requests ++ [o])) pid
    (lookupBatch_setBatch_self _ _ _) hp]
  rw [hp]

/-- Eligible request whose index reaches the size limit: the batch is
committed synchronously inside the middleware call.  The `clearTimeout`
performed by `commit` receives the batch *promise*, so when that promise is
not a timer id (it never is in the source) the pending flush timer
survives. -/
lemma middleware_size_trigger {α : Type} (s : SysState) (o : Req)
    (next : Req → α) (b : Batch) (h : eligible o = true)
    (hb : lookupBatch s.awaitingBatches (batchKey o) = some b)
    (hsize : MAX_BATCH_SIZE ≤ b.requests.length + 1) :
    batchRequestMiddleware s o next =
      ({ s with
          awaitingBatches := removeBatch s.awaitingBatches (batchKey o),
          timers := clearTimeout s.timers b.promise,
          sent := s.sent ++
            [{ id := s.nextCallId, path := "/wp/__experimental/batch",
               method := "POST", validation := "require-all-validate",
               requests := (b.requests ++ [o]).map projectRequest }],
          nextCallId := s.nextCallId + 1,
          callers := s.callers ++
            [{ req := o, batchId := batchKey o, idx := b.requests.length,
               waitsOn := Awaiting.onCall s.nextCallId, outcome := none }] },
       MiddlewareRet.batchedPromise s.callers.length) := by
  unfold batchRequestMiddleware
  rw [middleware_guard, h]
  simp only [Bool.not_true, Bool.false_eq_true, if_false]
  rw [addRequestToBatch_some s (batchKey o) o b hb]
  simp only [hsize, if_true]
  rw [commit_some _ _ (Batch.mk b.promise (b.requests ++ [o]))
    (lookupBatch_setBatch_self _ _ _)]
  simp [removeBatch_setBatch]

/-- Like `commitEventually_fresh` but for any non-Promise value in the
`promise` slot (`null` or a stray timer id): a batch promise and a flush
timer are created. -/
lemma commitEventually_create (s : SysState) (k : String) (b : Batch)
    (h : lookupBatch s.awaitingBatches k = some b)
    (hp : ∀ pid, b.promise ≠ JSVal.promiseRef pid) :
    commitEventually s k =
      ({ s with
          awaitingBatches := setBatch s.awaitingBatches k
            (Batch.mk (JSVal.promiseRef s.nextPromiseId) b.requests),
          promises := s.promises ++ [(s.nextPromiseId, PromiseState.pending)],
          timers := s.timers ++
            [Timer.mk s.nextTimerId s.nextPromiseId k],
          nextPromiseId := s.nextPromiseId + 1,
          nextTimerId := s.nextTimerId + 1 },
       Except.ok s.nextPromiseId) := by
  rcases hpv : b.promise with _ | t | pid
  · simp [commitEventually, h, hpv]
  · simp [commitEventually, h, hpv]
  · exact absurd hpv (hp pid)

/-- Eligible request into a pending batch below the size limit whose
`promise` slot holds no Promise: the request is appended and a fresh batch
promise and timer are created. -/
lemma middleware_warm_create {α : Type} (s : SysState) (o : Req)
    (next : Req → α) (b : Batch) (h : eligible o = true)
    (hb : lookupBatch s.awaitingBatches (batchKey o) = some b)
    (hp : ∀ pid, b.promise ≠ JSVal.promiseRef pid)
    (hsize : b.requests.length + 1 < MAX_BATCH_SIZE) :
    batchRequestMiddleware s o next =
      ({ s with
          awaitingBatches := setBatch s.awaitingBatches (batchKey o)
            (Batch.mk (JSVal.promiseRef s.nextPromiseId) (b.requests ++ [o])),
          promises := s.promises ++ [(s.nextPromiseId, PromiseState.pending)],
          timers := s.timers ++
            [Timer.mk s.nextTimerId s.nextPromiseId (batchKey o)],
          nextPromiseId := s.nextPromiseId + 1,
          nextTimerId := s.nextTimerId + 1,
          callers := s.callers ++
            [{ req := o, batchId := batchKey o, idx := b.requests.length,
               waitsOn := Awaiting.onPromise s.nextPromiseId,
               outcome := none }] },
       MiddlewareRet.batchedPromise s.callers.length) := by
  unfold batchRequestMiddleware
  rw [middleware_guard, h]
  simp only [Bool.not_true, Bool.false_eq_true, if_false]
  rw [addRequestToBatch_some s (batchKey o) o b hb]
  have hsz : ¬ (MAX_BATCH_SIZE ≤ b.requests.length + 1) := Nat.not_le.mpr hsize
  simp only [hsz, if_false]
  rw [commitEventually_create _ _ (Batch.mk b.promise (b.requests ++ [o]))
    (lookupBatch_setBatch_self _ _ _) hp]
  simp [setBatch_setBatch]

/-! ## Injectivity of the JSON batch key -/

/-- Inverse of the two-character escapes produced by `escChar`. -/
def unescCode (d : Char) : Char :=
  if d = 'n' then '\n'
  else if d = 't' then '\t'
  else if d = 'r' then '\r'
  else if d = 'b' then '\x08'
  else if d = 'f' then '\x0c'
  else d

/-- Parse an escaped JSON string body up to its closing quote, returning the
decoded characters and the remainder after the quote. -/
def unesc : List Char → Option (List Char × List Char)
  | [] => none
  | c :: rest =>
    if c = '"' then some ([], rest)
    else if c = '\\' then
      match rest with
      | [] => none
      | d :: rest2 =>
        match unesc rest2 with
        | none => none
        | some (s, r) => some (unescCode d :: s, r)
    else
      match unesc rest with
      | none => none
      | some (s, r) => some (c :: s, r)

lemma unesc_quote (rest : List Char) :
    unesc ('"' :: rest) = some ([], rest) := by
  conv_lhs => unfold unesc
  rw [if_pos rfl]

lemma unesc_backslash (d : Char) (rest : List Char) :
    unesc ('\\' :: d :: rest) =
      match unesc rest with
      | none => none
      | some (s, r) => some (unescCode d :: s, r) := rfl

lemma unesc_plain (c : Char) (rest : List Char) (h1 : c ≠ '"')
    (h2 : c ≠ '\\') :
    unesc (c :: rest) =
      match unesc rest with
      | none => none
      | some (s, r) => some (c :: s, r) := by
  conv_lhs => unfold unesc
  rw [if_neg h1, if_neg h2]

lemma unesc_escList (s tail : List Char) :
    unesc (escList s ++ '"' :: tail) = some (s, tail) := by
  induction s with
  | nil => exact unesc_quote tail
  | cons c cs ih =>
      have hstep : escList (c :: cs) ++ '"' :: tail =
          escChar c ++ (escList cs ++ '"' :: tail) := by
        simp [escList]
      rw [hstep]
      by_cases h1 : c = '"'
      · subst h1
        rw [show escChar '"' = ['\\', '"'] from rfl]
        rw [List.cons_append, List.cons_append, List.nil_append,
          unesc_backslash, ih]
        rfl
      by_cases h2 : c = '\\'
      · subst h2
        rw [show escChar '\\' = ['\\', '\\'] from rfl]
        rw [List.cons_append, List.cons_append, List.nil_append,
          unesc_backslash, ih]
        rfl
      by_cases h3 : c = '\n'
      · subst h3
        rw [show escChar '\n' = ['\\', 'n'] from rfl]
        rw [List.cons_append, List.cons_append, List.nil_append,
          unesc_backslash, ih]
        rfl
      by_cases h4 : c = '\t'
      · subst h4
        rw [show escChar '\t' = ['\\', 't'] from rfl]
        rw [List.cons_append, List.cons_append, List.nil_append,
          unesc_backslash, ih]
        rfl
      by_cases h5 : c = '\r'
      · subst h5
        rw [show escChar '\r' = ['\\', 'r'] from rfl]
        rw [List.cons_append, List.cons_append, List.nil_append,
          unesc_backslash, ih]
        rfl
      by_cases h6 : c = '\x08'
      · subst h6
        rw [show escChar '\x08' = ['\\', 'b'] from rfl]
        rw [List.cons_append, List.cons_append, List.nil_append,
          unesc_backslash, ih]
        rfl
      by_cases h7 : c = '\x0c'
      · subst h7
        rw [show escChar '\x0c' = ['\\', 'f'] from rfl]
        rw [List.cons_append, List.cons_append, List.nil_append,
          unesc_backslash, ih]
        rfl
      · rw [show escChar c = [c] from by
          simp [escChar, h1, h2, h3, h4, h5, h6, h7]]
        rw [List.cons_append, List.nil_append, unesc_plain c _ h1 h2, ih]

lemma toList_eq_of_eq (a b : String) (h : a.toList = b.toList) : a = b := by
  cases a
  cases b
  simp only [String.toList] at h
  subst h
  rfl

/-- `JSON.stringify` of a pair of strings is injective: distinct
(tag, method) pairs always yield distinct batch keys. -/
theorem jsonStringifyPair_inj (a1 b1 a2 b2 : String)
    (h : jsonStringifyPair a1 b1 = jsonStringifyPair a2 b2) :
    a1 = a2 ∧ b1 = b2 := by
  have hl := congrArg String.data h
  simp only [jsonStringifyPair, List.cons.injEq, true_and] at hl
  have h1 := congrArg unesc hl
  rw [show escList a1.toList ++ '"' :: ',' :: '"' ::
        (escList b1.toList ++ ['"', ']']) =
      escList a1.toList ++ '"' :: (',' :: '"' ::
        (escList b1.toList ++ ['"', ']'])) from rfl] at h1
  rw [show escList a2.toList ++ '"' :: ',' :: '"' ::
        (escList b2.toList ++ ['"', ']']) =
      escList a2.toList ++ '"' :: (',' :: '"' ::
        (escList b2.toList ++ ['"', ']'])) from rfl] at h1
  rw [unesc_escList, unesc_escList] at h1
  simp only [Option.some.injEq, Prod.mk.injEq, List.cons.injEq, true_and] at h1
  obtain ⟨ha, hb⟩ := h1
  have h2 := congrArg unesc hb
  rw [show escList b1.toList ++ ['"', ']'] =
      escList b1.toList ++ '"' :: [']'] from rfl] at h2
  rw [show escList b2.toList ++ ['"', ']'] =
      escList b2.toList ++ '"' :: [']'] from rfl] at h2
  rw [unesc_escList, unesc_escList] at h2
  simp only [Option.some.injEq, Prod.mk.injEq] at h2
  exact ⟨toList_eq_of_eq _ _ ha, toList_eq_of_eq _ _ h2.1⟩

/-! ## The time-window trace

State evolution for N same-key submissions inside one time window, the
timer-driven flush, and the transport settlement. -/

/-- Caller records produced by same-key submissions that all chain on batch
promise 0, indices counted from `i`. -/
def expectedCallers (key : String) : Nat → List Req → List Caller
  | _, [] => []
  | i, r :: rs =>
      { req := r, batchId := key, idx := i,
        waitsOn := Awaiting.onPromise 0, outcome := none } ::
      expectedCallers key (i + 1) rs

/-- System state after `reqs` same-key submissions (1 to 19 of them) into
the pristine state: one pending batch, one batch promise, one flush timer,
nothing sent yet. -/
def midState (key : String) (reqs : List Req) : SysState :=
  { awaitingBatches := [(key, Batch.mk (JSVal.promiseRef 0) reqs)],
    timers := [Timer.mk 0 0 key],
    promises := [(0, PromiseState.pending)],
    sent := [], callOutcomes := [],
    callers := expectedCallers key 0 reqs,
    nextCalls := [], uncaught := [],
    nextTimerId := 1, nextPromiseId := 1, nextCallId := 0 }

lemma expectedCallers_append (key : String) (rs : List Req) (r : Req) :
    ∀ i, expectedCallers key i (rs ++ [r]) =
      expectedCallers key i rs ++
        [{ req := r, batchId := key, idx := i + rs.length,
           waitsOn := Awaiting.onPromise 0, outcome := none }] := by
  induction rs with
  | nil =>
      intro i
      simp [expectedCallers]
  | cons a as ih =>
      intro i
      simp only [List.cons_append, expectedCallers, List.length_cons,
        List.append_eq]
      rw [ih (i + 1)]
      have h2 : i + 1 + as.length = i + (as.length + 1) := by omega
      rw [h2]

lemma submit_first (r : Req) (h : eligible r = true) :
    step initState (Event.submit r) = midState (batchKey r) [r] := by
  simp only [step]
  rw [middleware_fresh initState r _ h (by simp [initState, lookupBatch])]
  rfl

lemma submit_warm (key : String) (reqs : List Req) (r : Req)
    (h : eligible r = true) (hk : batchKey r = key)
    (hlen : reqs.length + 1 < MAX_BATCH_SIZE) :
    step (midState key reqs) (Event.submit r) = midState key (reqs ++ [r]) := by
  subst hk
  simp only [step]
  rw [middleware_warm_small _ r _ (Batch.mk (JSVal.promiseRef 0) reqs) 0 h
    (by simp [midState, lookupBatch]) rfl hlen]
  simp only [midState, setBatch, if_pos rfl]
  rw [expectedCallers_append (batchKey r) reqs r 0]
  simp

lemma run_submits (reqs : List Req) (key : String)
    (hall : ∀ r ∈ reqs, eligible r = true ∧ batchKey r = key)
    (hne : reqs ≠ []) (hlen : reqs.length < MAX_BATCH_SIZE) :
    run (reqs.map Event.submit) = midState key reqs := by
  induction reqs using List.reverseRecOn with
  | nil => exact absurd rfl hne
  | append_singleton rs r ih =>
      have hr := hall r (by simp)
      by_cases hrs0 : rs = []
      · subst hrs0
        simp only [List.nil_append, List.map_cons, List.map_nil]
        show step initState (Event.submit r) = midState key [r]
        rw [submit_first r hr.1, hr.2]
      · have hrs : run (rs.map Event.submit) = midState key rs := by
          apply ih
          · intro x hx
            exact hall x (by simp [hx])
          · exact hrs0
          · simp only [List.length_append, List.length_singleton] at hlen
            omega
        have hstep : run ((rs ++ [r]).map Event.submit) =
            step (run (rs.map Event.submit)) (Event.submit r) := by
          simp [run, List.foldl_append]
        rw [hstep, hrs, submit_warm key rs r hr.1 hr.2 (by
          simp only [List.length_append, List.length_singleton] at hlen
          omega)]

/-- State after the window timer fires on `midState`: the batch is flushed,
the single combined call is issued and the batch promise has adopted it. -/
def flushedState (key : String) (reqs : List Req) : SysState :=
  { awaitingBatches := [],
    timers := [],
    promises := [(0, PromiseState.adopted 0)],
    sent := [{ id := 0, path := "/wp/__experimental/batch", method := "POST",
               validation := "require-all-validate",
               requests := reqs.map projectRequest }],
    callOutcomes := [],
    callers := expectedCallers key 0 reqs,
    nextCalls := [], uncaught := [],
    nextTimerId := 1, nextPromiseId := 1, nextCallId := 1 }

/-- Firing a pending timer reduces to running `commit` on its batch key. -/
lemma fireTimer_found (s : SysState) (tid tid0 tpid : Nat) (tkey : String)
    (hfind : s.timers.find? (fun x => x.id == tid) =
      some (Timer.mk tid0 tpid tkey)) :
    fireTimer s tid =
      (match commit
          { s with timers := s.timers.filter (fun t2 => t2.id != tid) } tkey with
        | (s2, Except.ok callId) =>
            { s2 with promises :=
                setPromise s2.promises tpid (PromiseState.adopted callId) }
        | (s2, Except.error e) =>
            { s2 with uncaught := s2.uncaught ++ [e] }) := by
  unfold fireTimer
  rw [hfind]

lemma fire_midState (key : String) (reqs : List Req) :
    step (midState key reqs) (Event.timerFire 0) = flushedState key reqs := by
  simp only [step]
  rw [fireTimer_found (midState key reqs) 0 0 0 key rfl]
  have hlook : lookupBatch ({ midState key reqs with
      timers := (midState key reqs).timers.filter
        (fun t2 => t2.id != 0) } : SysState).awaitingBatches key =
      some (Batch.mk (JSVal.promiseRef 0) reqs) := by
    simp [midState, lookupBatch]
  rw [commit_some _ key _ hlook]
  simp only [midState, flushedState]
  simp [removeBatch_cons, removeBatch_nil, setPromise, clearTimeout,
    List.filter]

/-- Caller records after combined call 0 settles with `res` and reaches the
callers through the adopted batch promise 0. -/
def settledCallers (key : String) (res : TransportResult) :
    Nat → List Req → List Caller
  | _, [] => []
  | i, r :: rs =>
      { req := r, batchId := key, idx := i, waitsOn := Awaiting.onPromise 0,
        outcome := some (settleOutcome i res) } ::
      settledCallers key res (i + 1) rs

lemma settleCaller_expected (key : String) (res : TransportResult) :
    ∀ (rs : List Req) (i : Nat),
    (expectedCallers key i rs).map
      (settleCaller [(0, PromiseState.adopted 0)] 0 res) =
    settledCallers key res i rs := by
  intro rs
  induction rs with
  | nil => intro i; simp [expectedCallers, settledCallers]
  | cons r rs ih =>
      intro i
      simp only [expectedCallers, List.map_cons, settledCallers, ih (i + 1)]
      simp [settleCaller, lookupPromise]

/-- The event-loop event corresponding to a transport settlement. -/
def transportEvent (callId : Nat) : TransportResult → Event
  | TransportResult.ok rs => Event.transportResolve callId rs
  | TransportResult.error e => Event.transportReject callId e

lemma step_transportEvent (s : SysState) (cid : Nat) (res : TransportResult) :
    step s (transportEvent cid res) = deliverTransport s cid res := by
  cases res <;> rfl

lemma deliver_flushed (key : String) (reqs : List Req)
    (res : TransportResult) :
    deliverTransport (flushedState key reqs) 0 res =
      { flushedState key reqs with
          callOutcomes := [(0, res)],
          callers := settledCallers key res 0 reqs } := by
  unfold deliverTransport
  rw [if_pos (by simp [flushedState])]
  simp only [flushedState]
  rw [settleCaller_expected key res reqs 0]
  simp

/-- Whole-trace normal form: N same-key eligible requests inside one time
window, then the timer-driven flush, then the transport settlement of
combined call 0. -/
lemma run_window (key : String) (reqs : List Req) (res : TransportResult)
    (hall : ∀ r ∈ reqs, eligible r = true ∧ batchKey r = key)
    (hne : reqs ≠ []) (hlen : reqs.length < MAX_BATCH_SIZE) :
    run (reqs.map Event.submit ++ [Event.timerFire 0, transportEvent 0 res]) =
      { flushedState key reqs with
          callOutcomes := [(0, res)],
          callers := settledCallers key res 0 reqs } := by
  have hsplit :
      run (reqs.map Event.submit ++ [Event.timerFire 0, transportEvent 0 res]) =
      step (step (run (reqs.map Event.submit)) (Event.timerFire 0))
        (transportEvent 0 res) := by
    simp [run, List.foldl_append]
  rw [hsplit, run_submits reqs key hall hne hlen, fire_midState,
    step_transportEvent, deliver_flushed]

lemma settledCallers_map_outcome_ok (key : String) (rsp : List Resp) :
    ∀ (rs : List Req) (i : Nat), i + rs.length = rsp.length →
    (settledCallers key (TransportResult.ok rsp) i rs).map Caller.outcome =
      (rsp.drop i).map (fun x => some (Outcome.resolved (some x))) := by
  intro rs
  induction rs with
  | nil =>
      intro i h
      simp only [List.length_nil] at h
      have hd : rsp.drop i = [] := by
        apply List.drop_eq_nil_of_le
        omega
      simp [settledCallers, hd]
  | cons r rs ih =>
      intro i h
      have hi : i < rsp.length := by
        simp only [List.length_cons] at h
        omega
      have hdrop : rsp.drop i = rsp[i] :: rsp.drop (i + 1) :=
        List.drop_eq_getElem_cons hi
      simp only [settledCallers, List.map_cons, hdrop]
      rw [ih (i + 1) (by simp only [List.length_cons] at h; omega)]
      simp only [settleOutcome]
      rw [List.get?_eq_getElem?, List.getElem?_eq_getElem hi]

lemma settledCallers_map_outcome_error (key : String) (e : Err) :
    ∀ (rs : List Req) (i : Nat),
    (settledCallers key (TransportResult.error e) i rs).map Caller.outcome =
      List.replicate rs.length (some (Outcome.rejected e)) := by
  intro rs
  induction rs with
  | nil => intro i; simp [settledCallers]
  | cons r rs ih =>
      intro i
      simp [settledCallers, settleOutcome, ih (i + 1), List.replicate_succ]

lemma settledCallers_get? (key : String) (res : TransportResult) :
    ∀ (rs : List Req) (i j : Nat),
    (settledCallers key res i rs).get? j =
      (rs.get? j).map (fun r =>
        { req := r, batchId := key, idx := i + j,
          waitsOn := Awaiting.onPromise 0,
          outcome := some (settleOutcome (i + j) res) }) := by
  intro rs
  induction rs with
  | nil => intro i j; simp [settledCallers]
  | cons r rs ih =>
      intro i j
      cases j with
      | zero => simp [settledCallers]
      | succ j =>
          simp only [settledCallers, List.get?]
          rw [ih (i + 1) j]
          have : i + 1 + j = i + (j + 1) := by omega
          rw [this]

/-! ## Sent combined calls are append-only and always well formed -/

/-- One event-loop step either leaves the list of issued combined calls
unchanged or appends exactly one call, and any appended call targets the
batch endpoint with the all-or-nothing validation policy. -/
lemma step_sent_append (s : SysState) (e : Event) :
    (step s e).sent = s.sent ∨
    ∃ (i : Nat) (ws : List WireReq),
      (step s e).sent = s.sent ++
        [CombinedCall.mk i "/wp/__experimental/batch" "POST"
          "require-all-validate" ws] := by
  cases e with
  | submit o =>
      by_cases h : eligible o = true
      · rcases hb : lookupBatch s.awaitingBatches (batchKey o) with _ | b
        · left
          simp only [step]
          rw [middleware_fresh s o _ h hb]
        · by_cases hsz : MAX_BATCH_SIZE ≤ b.requests.length + 1
          · right
            refine ⟨s.nextCallId, (b.requests ++ [o]).map projectRequest, ?_⟩
            simp only [step]
            rw [middleware_size_trigger s o _ b h hb hsz]
          · rcases hp : b.promise with _ | t | pid
            · left
              simp only [step]
              rw [middleware_warm_create s o _ b h hb
                (by intro pid hc; rw [hp] at hc; exact JSVal.noConfusion hc)
                (Nat.lt_of_not_le hsz)]
            · left
              simp only [step]
              rw [middleware_warm_create s o _ b h hb
                (by intro pid hc; rw [hp] at hc; exact JSVal.noConfusion hc)
                (Nat.lt_of_not_le hsz)]
            · left
              simp only [step]
              rw [middleware_warm_small s o _ b pid h hb hp
                (Nat.lt_of_not_le hsz)]
      · left
        simp only [step]
        rw [middleware_ineligible s o _ (Bool.eq_false_iff.mpr h)]
  | timerFire tid =>
      rcases hf : s.timers.find? (fun x => x.id == tid) with _ | t
      · left
        simp [step, fireTimer, hf]
      · obtain ⟨tid0, tpid, tkey⟩ := t
        rcases hb : lookupBatch s.awaitingBatches tkey with _ | b
        · left
          simp only [step]
          rw [fireTimer_found s tid tid0 tpid tkey hf,
            commit_none ({ s with timers := List.filter (fun t2 => t2.id != tid) s.timers } : SysState) tkey hb]
        · right
          refine ⟨s.nextCallId, b.requests.map projectRequest, ?_⟩
          simp only [step]
          rw [fireTimer_found s tid tid0 tpid tkey hf,
            commit_some ({ s with timers := List.filter (fun t2 => t2.id != tid) s.timers } : SysState) tkey b hb]
  | transportResolve cid rs =>
      left
      simp only [step]
      unfold deliverTransport
      split <;> rfl
  | transportReject cid err =>
      left
      simp only [step]
      unfold deliverTransport
      split <;> rfl

/-- A pending batch's request sequence is append-only: across any single
event-loop step, a registered batch either disappears (it was flushed),
keeps exactly its request list, or gains exactly one request at the end.
No step can remove or reorder requests already in a batch. -/
lemma step_registry_append_only (s : SysState) (e : Event) (k : String)
    (b : Batch) (hb : lookupBatch s.awaitingBatches k = some b) :
    lookupBatch (step s e).awaitingBatches k = none ∨
    (∃ p, lookupBatch (step s e).awaitingBatches k =
      some (Batch.mk p b.requests)) ∨
    (∃ p o, lookupBatch (step s e).awaitingBatches k =
      some (Batch.mk p (b.requests ++ [o]))) := by
  obtain ⟨bp, brs⟩ := b
  cases e with
  | submit o =>
      by_cases h : eligible o = true
      · by_cases hkey : batchKey o = k
        · subst hkey
          by_cases hsz : MAX_BATCH_SIZE ≤ brs.length + 1
          · left
            simp only [step]
            rw [middleware_size_trigger s o _ (Batch.mk bp brs) h hb hsz]
            exact lookupBatch_removeBatch_self _ _
          · rcases bp with _ | t | pid
            · right; right
              refine ⟨JSVal.promiseRef s.nextPromiseId, o, ?_⟩
              simp only [step]
              rw [middleware_warm_create s o _ (Batch.mk JSVal.null brs) h hb
                (by intro pid hc; exact JSVal.noConfusion hc)
                (Nat.lt_of_not_le hsz)]
              exact lookupBatch_setBatch_self _ _ _
            · right; right
              refine ⟨JSVal.promiseRef s.nextPromiseId, o, ?_⟩
              simp only [step]
              rw [middleware_warm_create s o _ (Batch.mk (JSVal.timerId t) brs)
                h hb (by intro pid hc; exact JSVal.noConfusion hc)
                (Nat.lt_of_not_le hsz)]
              exact lookupBatch_setBatch_self _ _ _
            · right; right
              refine ⟨JSVal.promiseRef pid, o, ?_⟩
              simp only [step]
              rw [middleware_warm_small s o _ (Batch.mk (JSVal.promiseRef pid)
                brs) pid h hb rfl (Nat.lt_of_not_le hsz)]
              exact lookupBatch_setBatch_self _ _ _
        · right; left
          refine ⟨bp, ?_⟩
          rcases hb' : lookupBatch s.awaitingBatches (batchKey o) with _ | b2
          · simp only [step]
            rw [middleware_fresh s o _ h hb']
            rw [lookupBatch_setBatch_other _ _ _ _ hkey]
            exact hb
          · by_cases hsz : MAX_BATCH_SIZE ≤ b2.requests.length + 1
            · simp only [step]
              rw [middleware_size_trigger s o _ _ h hb' hsz]
              rw [lookupBatch_removeBatch_other _ _ _ hkey]
              exact hb
            · rcases hp : b2.promise with _ | t | pid
              · simp only [step]
                rw [middleware_warm_create s o _ _ h hb'
                  (by intro pid hc; rw [hp] at hc; exact JSVal.noConfusion hc)
                  (Nat.lt_of_not_le hsz)]
                rw [lookupBatch_setBatch_other _ _ _ _ hkey]
                exact hb
              · simp only [step]
                rw [middleware_warm_create s o _ _ h hb'
                  (by intro pid hc; rw [hp] at hc; exact JSVal.noConfusion hc)
                  (Nat.lt_of_not_le hsz)]
                rw [lookupBatch_setBatch_other _ _ _ _ hkey]
                exact hb
              · simp only [step]
                rw [middleware_warm_small s o _ _ pid h hb' hp
                  (Nat.lt_of_not_le hsz)]
                rw [lookupBatch_setBatch_other _ _ _ _ hkey]
                exact hb
      · right; left
        refine ⟨bp, ?_⟩
        simp only [step]
        rw [middleware_ineligible s o _ (Bool.eq_false_iff.mpr h)]
        exact hb
  | timerFire tid =>
      rcases hf : s.timers.find? (fun x => x.id == tid) with _ | t
      · right; left
        refine ⟨bp, ?_⟩
        simp only [step, fireTimer, hf]
        exact hb
      · obtain ⟨tid0, tpid, tkey⟩ := t
        by_cases hkey : tkey = k
        · subst hkey
          left
          simp only [step]
          rw [fireTimer_found s tid tid0 tpid tkey hf,
            commit_some ({ s with timers := List.filter (fun t2 => t2.id != tid) s.timers } : SysState) tkey (Batch.mk bp brs) hb]
          exact lookupBatch_removeBatch_self _ _
        · right; left
          refine ⟨bp, ?_⟩
          rcases hbk : lookupBatch s.awaitingBatches tkey with _ | b2
          · simp only [step]
            rw [fireTimer_found s tid tid0 tpid tkey hf,
              commit_none ({ s with timers := List.filter (fun t2 => t2.id != tid) s.timers } : SysState) tkey hbk]
            rw [lookupBatch_removeBatch_other _ _ _ hkey]
            exact hb
          · simp only [step]
            rw [fireTimer_found s tid tid0 tpid tkey hf,
              commit_some ({ s with timers := List.filter (fun t2 => t2.id != tid) s.timers } : SysState) tkey b2 hbk]
            rw [lookupBatch_removeBatch_other _ _ _ hkey]
            exact hb
  | transportResolve cid rs =>
      right; left
      refine ⟨bp, ?_⟩
      simp only [step]
      unfold deliverTransport
      split
      · exact hb
      · exact hb
  | transportReject cid err =>
      right; left
      refine ⟨bp, ?_⟩
      simp only [step]
      unfold deliverTransport
      split
      · exact hb
      · exact hb

/-- An eligible request always produces a batched-promise result (never a
delegation and never a synchronous throw) and leaves `nextCalls`
untouched. -/
lemma middleware_eligible_run {α : Type} (s : SysState) (o : Req)
    (next : Req → α) (h : eligible o = true) :
    ∃ s1, batchRequestMiddleware s o next =
        (s1, MiddlewareRet.batchedPromise s.callers.length) ∧
      s1.nextCalls = s.nextCalls := by
  rcases hb : lookupBatch s.awaitingBatches (batchKey o) with _ | b
  · exact ⟨_, middleware_fresh s o next h hb, rfl⟩
  · by_cases hsz : MAX_BATCH_SIZE ≤ b.requests.length + 1
    · exact ⟨_, middleware_size_trigger s o next b h hb hsz, rfl⟩
    · rcases hp : b.promise with _ | t | pid
      · exact ⟨_, middleware_warm_create s o next b h hb
          (by intro pid hc; rw [hp] at hc; exact JSVal.noConfusion hc)
          (Nat.lt_of_not_le hsz), rfl⟩
      · exact ⟨_, middleware_warm_create s o next b h hb
          (by intro pid hc; rw [hp] at hc; exact JSVal.noConfusion hc)
          (Nat.lt_of_not_le hsz), rfl⟩
      · exact ⟨_, middleware_warm_small s o next b pid h hb hp
          (Nat.lt_of_not_le hsz), rfl⟩

/-- A concrete eligible request used by the closed-trace theorems below. -/
def reqT : Req :=
  { method := "POST", path := "/v2/template-parts", body := "b",
    headers := "h", batchAs := "g1" }

/-! ## Claim theorems -/

/-- C4: for every ineligible request — method not a mutating verb, grouping
tag absent/empty, or path not recognized by `endpointSupportsBatch` — the
middleware invokes the next handler exactly once with the request
unmodified, returns that handler's result unchanged, and performs no
batching side effect (the submit step only records the single forwarded
request). -/
theorem c4_ineligible_passthrough {α : Type} (s : SysState) (o : Req)
    (next : Req → α) (h : eligible o = false) :
    batchRequestMiddleware s o next = (s, MiddlewareRet.delegated (next o)) ∧
    step s (Event.submit o) = { s with nextCalls := s.nextCalls ++ [o] } := by
  refine ⟨middleware_ineligible s o next h, ?_⟩
  simp only [step]
  rw [middleware_ineligible s o _ h]

/-- A concrete ineligible request (`GET` is not a mutating verb). -/
def reqGet : Req :=
  { method := "GET", path := "/v2/template-parts", body := "b",
    headers := "h", batchAs := "g1" }

theorem c4_witness :
    batchRequestMiddleware initState reqGet Req.path =
      (initState, MiddlewareRet.delegated "/v2/template-parts") ∧
    step initState (Event.submit reqGet) =
      { initState with nextCalls := [reqGet] } :=
  c4_ineligible_passthrough initState reqGet Req.path (by decide)

/-- C9: for every eligible request the next handler is never invoked: the
middleware's result does not depend on `next` at all, it is always the
batched caller promise, and the submit step forwards nothing to the next
handler. -/
theorem c9_eligible_never_calls_next {α : Type} (s : SysState) (o : Req)
    (h : eligible o = true) (n1 n2 : Req → α) :
    batchRequestMiddleware s o n1 = batchRequestMiddleware s o n2 ∧
    (batchRequestMiddleware s o n1).2 =
      MiddlewareRet.batchedPromise s.callers.length ∧
    (step s (Event.submit o)).nextCalls = s.nextCalls := by
  obtain ⟨s1, heq1, hnc1⟩ := middleware_eligible_run s o n1 h
  obtain ⟨s2, heq2, _⟩ := middleware_eligible_run s o n2 h
  have hsame : batchRequestMiddleware s o n1 = batchRequestMiddleware s o n2 := by
    unfold batchRequestMiddleware
    rw [middleware_guard, h]
    simp only [Bool.not_true, Bool.false_eq_true, if_false]
  refine ⟨hsame, by rw [heq1], ?_⟩
  obtain ⟨s3, heq3, hnc3⟩ :=
    middleware_eligible_run s o (fun r => r) h
  simp only [step]
  rw [heq3]
  exact hnc3

theorem c9_witness :
    batchRequestMiddleware initState reqT Req.body =
      batchRequestMiddleware initState reqT Req.headers ∧
    (batchRequestMiddleware initState reqT Req.body).2 =
      MiddlewareRet.batchedPromise 0 ∧
    (step initState (Event.submit reqT)).nextCalls = [] :=
  c9_eligible_never_calls_next initState reqT (by decide) Req.body Req.headers

/-- C7: two eligible requests that differ in grouping tag or in method get
different batch keys (the JSON serialization is injective), and submitting
both in the same tick yields two separate single-request batches. -/
theorem c7_distinct_keys_distinct_batches (o1 o2 : Req)
    (h1 : eligible o1 = true) (h2 : eligible o2 = true)
    (hdiff : o1.batchAs ≠ o2.batchAs ∨ o1.method ≠ o2.method) :
    batchKey o1 ≠ batchKey o2 ∧
    (run [Event.submit o1, Event.submit o2]).awaitingBatches =
      [(batchKey o1, Batch.mk (JSVal.promiseRef 0) [o1]),
       (batchKey o2, Batch.mk (JSVal.promiseRef 1) [o2])] := by
  have hkey : batchKey o1 ≠ batchKey o2 := by
    intro hc
    obtain ⟨ha, hm⟩ := jsonStringifyPair_inj _ _ _ _ hc
    rcases hdiff with hd | hd
    · exact hd ha
    · exact hd hm
  refine ⟨hkey, ?_⟩
  have hrun : run [Event.submit o1, Event.submit o2] =
      step (step initState (Event.submit o1)) (Event.submit o2) := rfl
  rw [hrun, submit_first o1 h1]
  simp only [step]
  rw [middleware_fresh (midState (batchKey o1) [o1]) o2 _ h2
    (by simp [midState, lookupBatch, hkey])]
  simp [midState, setBatch, hkey]

def reqT2 : Req :=
  { method := "POST", path := "/v2/template-parts", body := "b2",
    headers := "h2", batchAs := "g2" }

theorem c7_witness :
    batchKey reqT ≠ batchKey reqT2 ∧
    (run [Event.submit reqT, Event.submit reqT2]).awaitingBatches =
      [(batchKey reqT, Batch.mk (JSVal.promiseRef 0) [reqT]),
       (batchKey reqT2, Batch.mk (JSVal.promiseRef 1) [reqT2])] :=
  c7_distinct_keys_distinct_batches reqT reqT2 (by decide) (by decide)
    (Or.inl (by decide))

/-- A submit step whose middleware run returns a batched promise ends in
the middleware's post-state. -/
lemma step_submit_of_batched (s : SysState) (o : Req) (s1 : SysState)
    (cid : Nat)
    (heq : batchRequestMiddleware s o (fun r => r) =
      (s1, MiddlewareRet.batchedPromise cid)) :
    step s (Event.submit o) = s1 := by
  simp only [step]
  rw [heq]

/-- C2: an eligible request that finds its batch holding 19 pending
requests (so its index `idx` satisfies `idx + 1 >= MAX_BATCH_SIZE`) flushes
the batch synchronously within the submit step — the combined call,
including this request, is issued immediately and the key is removed — and
a subsequent same-key eligible request lands in a freshly created batch
containing only itself. -/
theorem c2_size_trigger_immediate_flush (s : SysState) (o o2 : Req)
    (b : Batch) (h : eligible o = true)
    (hb : lookupBatch s.awaitingBatches (batchKey o) = some b)
    (hsize : MAX_BATCH_SIZE ≤ b.requests.length + 1)
    (h2 : eligible o2 = true) (hk2 : batchKey o2 = batchKey o) :
    (step s (Event.submit o)).sent = s.sent ++
      [CombinedCall.mk s.nextCallId "/wp/__experimental/batch" "POST"
        "require-all-validate" ((b.requests ++ [o]).map projectRequest)] ∧
    lookupBatch (step s (Event.submit o)).awaitingBatches (batchKey o) =
      none ∧
    (lookupBatch
        (step (step s (Event.submit o)) (Event.submit o2)).awaitingBatches
        (batchKey o)).map Batch.requests = some [o2] := by
  have hstep := step_submit_of_batched s o _ _
    (middleware_size_trigger s o (fun r => r) b h hb hsize)
  refine ⟨by rw [hstep], ?_, ?_⟩
  · rw [hstep]
    exact lookupBatch_removeBatch_self _ _
  · have hlook2 : lookupBatch
        (step s (Event.submit o)).awaitingBatches (batchKey o2) = none := by
      rw [hstep, hk2]
      exact lookupBatch_removeBatch_self _ _
    have hstep2 := step_submit_of_batched (step s (Event.submit o)) o2 _ _
      (middleware_fresh (step s (Event.submit o)) o2 (fun r => r) h2 hlook2)
    rw [hstep2, ← hk2]
    simp [lookupBatch_setBatch_self]

/-- A concrete state holding a same-key batch of 19 pending requests. -/
def state19 : SysState := midState (batchKey reqT) (List.replicate 19 reqT)

theorem c2_witness :
    (step state19 (Event.submit reqT)).sent =
      [CombinedCall.mk 0 "/wp/__experimental/batch" "POST"
        "require-all-validate"
        ((List.replicate 19 reqT ++ [reqT]).map projectRequest)] ∧
    lookupBatch (step state19 (Event.submit reqT)).awaitingBatches
      (batchKey reqT) = none ∧
    (lookupBatch
        (step (step state19 (Event.submit reqT))
          (Event.submit reqT)).awaitingBatches
        (batchKey reqT)).map Batch.requests = some [reqT] :=
  c2_size_trigger_immediate_flush state19 reqT reqT
    (Batch.mk (JSVal.promiseRef 0) (List.replicate 19 reqT))
    (by decide) (by decide) (by decide) (by decide) rfl

/-- C5: `commit` removes the batch from the registry in the same atomic
step in which it issues the combined call (so the post-state has the key
gone and exactly one new sent call); the list of already-sent combined
calls is immutable under every further event; and a registered batch's
request list only ever grows by appends until the batch is removed. -/
theorem c5_flush_removes_before_send (s : SysState) (k : String) (b : Batch)
    (hb : lookupBatch s.awaitingBatches k = some b) :
    lookupBatch ((commit s k).1).awaitingBatches k = none ∧
    ((commit s k).1).sent = s.sent ++
      [CombinedCall.mk s.nextCallId "/wp/__experimental/batch" "POST"
        "require-all-validate" (b.requests.map projectRequest)] ∧
    (∀ (e : Event) (i : Nat) (c : CombinedCall),
      s.sent.get? i = some c → ((step s e).sent).get? i = some c) ∧
    (∀ e : Event,
      lookupBatch (step s e).awaitingBatches k = none ∨
      (∃ p, lookupBatch (step s e).awaitingBatches k =
        some (Batch.mk p b.requests)) ∨
      (∃ p o, lookupBatch (step s e).awaitingBatches k =
        some (Batch.mk p (b.requests ++ [o])))) := by
  refine ⟨?_, ?_, ?_, fun e => step_registry_append_only s e k b hb⟩
  · rw [commit_some s k b hb]
    exact lookupBatch_removeBatch_self _ _
  · rw [commit_some s k b hb]
  · intro e i c hc
    obtain ⟨hlt, -⟩ := List.get?_eq_some.mp hc
    rcases step_sent_append s e with hsame | ⟨j, ws, happ⟩
    · rw [hsame]
      exact hc
    · rw [happ, List.get?_append hlt]
      exact hc

/-- A concrete state with one pending batch and one already-sent call. -/
def state1s : SysState :=
  { flushedState (batchKey reqT) [reqT] with
      awaitingBatches :=
        [(batchKey reqT, Batch.mk (JSVal.promiseRef 0) [reqT])] }

theorem c5_witness :
    lookupBatch ((commit state1s (batchKey reqT)).1).awaitingBatches
      (batchKey reqT) = none ∧
    ((commit state1s (batchKey reqT)).1).sent =
      [CombinedCall.mk 0 "/wp/__experimental/batch" "POST"
        "require-all-validate" [projectRequest reqT],
       CombinedCall.mk 1 "/wp/__experimental/batch" "POST"
        "require-all-validate" [projectRequest reqT]] ∧
    ((step state1s (Event.timerFire 0)).sent).get? 0 =
      some (CombinedCall.mk 0 "/wp/__experimental/batch" "POST"
        "require-all-validate" [projectRequest reqT]) := by
  refine ⟨(c5_flush_removes_before_send state1s (batchKey reqT)
      (Batch.mk (JSVal.promiseRef 0) [reqT]) (by decide)).1, ?_, ?_⟩
  · exact (c5_flush_removes_before_send state1s (batchKey reqT)
      (Batch.mk (JSVal.promiseRef 0) [reqT]) (by decide)).2.1
  · exact (c5_flush_removes_before_send state1s (batchKey reqT)
      (Batch.mk (JSVal.promiseRef 0) [reqT]) (by decide)).2.2.1
      (Event.timerFire 0) 0
      (CombinedCall.mk 0 "/wp/__experimental/batch" "POST"
        "require-all-validate" [projectRequest reqT]) (by decide)

/-- C8: every combined call ever sent (over any event trace) targets the
batch endpoint by `POST` and carries the `require-all-validate` policy;
`commit` sends exactly the pending requests in append order, each projected
through `projectRequest`; and `projectRequest` keeps exactly the fields
`path`, `body`, `headers` (the grouping tag is not part of a `WireReq`). -/
theorem c8_wire_format (evs : List Event) (call : CombinedCall)
    (hmem : call ∈ (run evs).sent) :
    (call.path = "/wp/__experimental/batch" ∧ call.method = "POST" ∧
      call.validation = "require-all-validate") ∧
    (∀ (s : SysState) (k : String) (b : Batch),
      lookupBatch s.awaitingBatches k = some b →
      ((commit s k).1).sent = s.sent ++
        [CombinedCall.mk s.nextCallId "/wp/__experimental/batch" "POST"
          "require-all-validate" (b.requests.map projectRequest)]) ∧
    (∀ o : Req, projectRequest o = WireReq.mk o.path o.body o.headers) := by
  refine ⟨?_, ?_, fun o => rfl⟩
  · have hgen : ∀ (l : List Event) (ss : SysState),
        (∀ c ∈ ss.sent, c.path = "/wp/__experimental/batch" ∧
          c.method = "POST" ∧ c.validation = "require-all-validate") →
        ∀ c ∈ (l.foldl step ss).sent,
          c.path = "/wp/__experimental/batch" ∧ c.method = "POST" ∧
          c.validation = "require-all-validate" := by
      intro l
      induction l with
      | nil =>
          intro ss hss
          simpa using hss
      | cons e l ih =>
          intro ss hss
          simp only [List.foldl_cons]
          apply ih
          intro c hc
          rcases step_sent_append ss e with hsame | ⟨i, ws, happ⟩
          · rw [hsame] at hc
            exact hss c hc
          · rw [happ] at hc
            rcases List.mem_append.mp hc with hin | hin
            · exact hss c hin
            · rw [List.mem_singleton.mp hin]
              exact ⟨rfl, rfl, rfl⟩
    exact hgen evs initState (by simp [initState]) call hmem
  · intro s k b hbk
    rw [commit_some s k b hbk]

set_option maxRecDepth 8000 in
theorem c8_witness :
    ((CombinedCall.mk 0 "/wp/__experimental/batch" "POST"
        "require-all-validate" [projectRequest reqT]).path =
      "/wp/__experimental/batch" ∧
     (CombinedCall.mk 0 "/wp/__experimental/batch" "POST"
        "require-all-validate" [projectRequest reqT]).method = "POST" ∧
     (CombinedCall.mk 0 "/wp/__experimental/batch" "POST"
        "require-all-validate" [projectRequest reqT]).validation =
      "require-all-validate") ∧
    ((commit state1s (batchKey reqT)).1).sent =
      state1s.sent ++
        [CombinedCall.mk 1 "/wp/__experimental/batch" "POST"
          "require-all-validate" [projectRequest reqT]] ∧
    projectRequest reqT = WireReq.mk "/v2/template-parts" "b" "h" := by
  refine ⟨(c8_wire_format [Event.submit reqT, Event.timerFire 0]
      (CombinedCall.mk 0 "/wp/__experimental/batch" "POST"
        "require-all-validate" [projectRequest reqT]) (by decide)).1,
    ?_, ?_⟩
  · exact (c8_wire_format [Event.submit reqT, Event.timerFire 0]
      (CombinedCall.mk 0 "/wp/__experimental/batch" "POST"
        "require-all-validate" [projectRequest reqT]) (by decide)).2.1
      state1s (batchKey reqT) (Batch.mk (JSVal.promiseRef 0) [reqT])
      (by decide)
  · exact (c8_wire_format [Event.submit reqT, Event.timerFire 0]
      (CombinedCall.mk 0 "/wp/__experimental/batch" "POST"
        "require-all-validate" [projectRequest reqT]) (by decide)).2.2
      reqT

/-- C1 (amended to `N < MAX_BATCH_SIZE`): N same-key eligible requests
submitted within one time window produce exactly one combined request over
the whole trace, containing the N sub-requests projected in submission
order, and every caller's promise resolves with the sub-response at its
zero-based submission index; nothing is forwarded to `next` and no error is
raised. -/
theorem c1_timer_window_batching (key : String) (reqs : List Req)
    (rsp : List Resp)
    (hall : ∀ r ∈ reqs, eligible r = true ∧ batchKey r = key)
    (hne : reqs ≠ []) (hlen : reqs.length < MAX_BATCH_SIZE)
    (hrsp : rsp.length = reqs.length) :
    (run (reqs.map Event.submit ++
      [Event.timerFire 0, Event.transportResolve 0 rsp])).sent =
      [CombinedCall.mk 0 "/wp/__experimental/batch" "POST"
        "require-all-validate" (reqs.map projectRequest)] ∧
    (run (reqs.map Event.submit ++
      [Event.timerFire 0, Event.transportResolve 0 rsp])).callers.map
        Caller.outcome =
      rsp.map (fun x => some (Outcome.resolved (some x))) ∧
    (run (reqs.map Event.submit ++
      [Event.timerFire 0, Event.transportResolve 0 rsp])).nextCalls = [] ∧
    (run (reqs.map Event.submit ++
      [Event.timerFire 0, Event.transportResolve 0 rsp])).uncaught = [] := by
  have hev : Event.transportResolve 0 rsp =
      transportEvent 0 (TransportResult.ok rsp) := rfl
  rw [hev, run_window key reqs (TransportResult.ok rsp) hall hne hlen]
  refine ⟨rfl, ?_, rfl, rfl⟩
  show (settledCallers key (TransportResult.ok rsp) 0 reqs).map
      Caller.outcome = _
  rw [settledCallers_map_outcome_ok key rsp reqs 0 (by omega),
    List.drop_zero]

/-- Request A of the spec's worked example. -/
def reqA : Req :=
  { method := "POST", path := "/v2/template-parts", body := "bodyA",
    headers := "hA", batchAs := "g1" }

/-- Request B of the spec's worked example. -/
def reqB : Req :=
  { method := "POST", path := "/v2/template-parts", body := "bodyB",
    headers := "hB", batchAs := "g1" }

theorem c1_witness :
    (run ([reqA, reqB].map Event.submit ++
      [Event.timerFire 0,
       Event.transportResolve 0 ["respA", "respB"]])).sent =
      [CombinedCall.mk 0 "/wp/__experimental/batch" "POST"
        "require-all-validate" [projectRequest reqA, projectRequest reqB]] ∧
    (run ([reqA, reqB].map Event.submit ++
      [Event.timerFire 0,
       Event.transportResolve 0 ["respA", "respB"]])).callers.map
        Caller.outcome =
      [some (Outcome.resolved (some "respA")),
       some (Outcome.resolved (some "respB"))] ∧
    (run ([reqA, reqB].map Event.submit ++
      [Event.timerFire 0,
       Event.transportResolve 0 ["respA", "respB"]])).nextCalls = [] ∧
    (run ([reqA, reqB].map Event.submit ++
      [Event.timerFire 0,
       Event.transportResolve 0 ["respA", "respB"]])).uncaught = [] :=
  c1_timer_window_batching (batchKey reqA) [reqA, reqB] ["respA", "respB"]
    (by decide) (by decide) (by decide) (by decide)

set_option maxRecDepth 200000 in
/-- Counterexample to C1 as stated: 20 eligible same-key requests submitted
within the window.  Exactly one combined request is issued, but after both
the window elapses and the transport resolves with 20 responses, the
promises of callers 0..18 have not resolved at all (only caller 19, who
triggered the size flush, got its sub-response), and an uncaught TypeError
was raised by the orphaned timer. -/
theorem c1_counterexample :
    (run (List.replicate 20 (Event.submit reqT) ++
      [Event.timerFire 0,
       Event.transportResolve 0 (List.replicate 20 "resp")])).callers.map
        Caller.outcome =
      List.replicate 19 none ++ [some (Outcome.resolved (some "resp"))] ∧
    (run (List.replicate 20 (Event.submit reqT) ++
      [Event.timerFire 0,
       Event.transportResolve 0 (List.replicate 20 "resp")])).sent.length
      = 1 ∧
    (run (List.replicate 20 (Event.submit reqT) ++
      [Event.timerFire 0,
       Event.transportResolve 0 (List.replicate 20 "resp")])).uncaught =
      [JSError.typeError (jsonStringifyPair "g1" "POST")] := by
  decide

/-- C6 (amended to batches flushed by the time window, i.e. fewer than
`MAX_BATCH_SIZE` requests): when the transport rejects the combined call
with `E`, every caller of the batch rejects with `E`; only the one combined
call was ever issued (no retry). -/
theorem c6_reject_propagates_to_all (key : String) (reqs : List Req)
    (e : Err)
    (hall : ∀ r ∈ reqs, eligible r = true ∧ batchKey r = key)
    (hne : reqs ≠ []) (hlen : reqs.length < MAX_BATCH_SIZE) :
    (run (reqs.map Event.submit ++
      [Event.timerFire 0, Event.transportReject 0 e])).sent =
      [CombinedCall.mk 0 "/wp/__experimental/batch" "POST"
        "require-all-validate" (reqs.map projectRequest)] ∧
    (run (reqs.map Event.submit ++
      [Event.timerFire 0, Event.transportReject 0 e])).callers.map
        Caller.outcome =
      List.replicate reqs.length (some (Outcome.rejected e)) := by
  have hev : Event.transportReject 0 e =
      transportEvent 0 (TransportResult.error e) := rfl
  rw [hev, run_window key reqs (TransportResult.error e) hall hne hlen]
  refine ⟨rfl, ?_⟩
  show (settledCallers key (TransportResult.error e) 0 reqs).map
      Caller.outcome = _
  exact settledCallers_map_outcome_error key e reqs 0

theorem c6_witness :
    (run ([reqA, reqB].map Event.submit ++
      [Event.timerFire 0, Event.transportReject 0 "E"])).sent =
      [CombinedCall.mk 0 "/wp/__experimental/batch" "POST"
        "require-all-validate" [projectRequest reqA, projectRequest reqB]] ∧
    (run ([reqA, reqB].map Event.submit ++
      [Event.timerFire 0, Event.transportReject 0 "E"])).callers.map
        Caller.outcome =
      [some (Outcome.rejected "E"), some (Outcome.rejected "E")] :=
  c6_reject_propagates_to_all (batchKey reqA) [reqA, reqB] "E"
    (by decide) (by decide) (by decide)

set_option maxRecDepth 200000 in
/-- Counterexample to C6 as stated: for the size-triggered batch of 20, the
transport rejecting with "E" reaches only caller 19; the promises of
callers 0..18 — whose requests were part of the same failed batch — never
reject (they stay pending forever). -/
theorem c6_counterexample :
    (run (List.replicate 20 (Event.submit reqT) ++
      [Event.transportReject 0 "E", Event.timerFire 0])).sent =
      [CombinedCall.mk 0 "/wp/__experimental/batch" "POST"
        "require-all-validate" (List.replicate 20 (projectRequest reqT))] ∧
    (run (List.replicate 20 (Event.submit reqT) ++
      [Event.transportReject 0 "E", Event.timerFire 0])).callers.map
        Caller.outcome =
      List.replicate 19 none ++ [some (Outcome.rejected "E")] := by
  decide

lemma settledCallers_ok_mem (key : String) (rsp : List Resp) :
    ∀ (rs : List Req) (i : Nat) (c : Caller),
    c ∈ settledCallers key (TransportResult.ok rsp) i rs →
    c.outcome = some (Outcome.resolved (rsp.get? c.idx)) := by
  intro rs
  induction rs with
  | nil =>
      intro i c hc
      simp [settledCallers] at hc
  | cons r rs ih =>
      intro i c hc
      rcases List.mem_cons.mp hc with rfl | h
      · simp [settleOutcome]
      · exact ih (i + 1) c h

/-- C10 (amended to batches flushed by the time window): when the transport
resolves with a response list shorter than the batch, a caller whose index
is out of range resolves successfully with the absent value (`undefined`);
no caller rejects and no error is raised. -/
theorem c10_short_response_resolves_undefined (key : String)
    (reqs : List Req) (rsp : List Resp) (i : Nat)
    (hall : ∀ r ∈ reqs, eligible r = true ∧ batchKey r = key)
    (hne : reqs ≠ []) (hlen : reqs.length < MAX_BATCH_SIZE)
    (hshort : rsp.length < reqs.length)
    (hi1 : rsp.length ≤ i) (hi2 : i < reqs.length) :
    ((run (reqs.map Event.submit ++
      [Event.timerFire 0, Event.transportResolve 0 rsp])).callers.get?
        i).map Caller.outcome =
      some (some (Outcome.resolved none)) ∧
    (run (reqs.map Event.submit ++
      [Event.timerFire 0, Event.transportResolve 0 rsp])).uncaught = [] ∧
    (∀ c ∈ (run (reqs.map Event.submit ++
        [Event.timerFire 0, Event.transportResolve 0 rsp])).callers,
      ∀ err : Err, c.outcome ≠ some (Outcome.rejected err)) := by
  have hev : Event.transportResolve 0 rsp =
      transportEvent 0 (TransportResult.ok rsp) := rfl
  rw [hev, run_window key reqs (TransportResult.ok rsp) hall hne hlen]
  refine ⟨?_, rfl, ?_⟩
  · show ((settledCallers key (TransportResult.ok rsp) 0 reqs).get? i).map
        Caller.outcome = _
    rw [settledCallers_get? key (TransportResult.ok rsp) reqs 0 i]
    obtain ⟨r, hr⟩ : ∃ r, reqs.get? i = some r := by
      rcases hx : reqs.get? i with _ | r
      · rw [List.get?_eq_none] at hx
        omega
      · exact ⟨r, rfl⟩
    rw [hr]
    have hnone : rsp.get? (0 + i) = none := by
      rw [List.get?_eq_none]
      omega
    simp only [Option.map_some, settleOutcome, hnone]
    rfl
  · intro c hc err
    have houtc := settledCallers_ok_mem key rsp reqs 0 c hc
    rw [houtc]
    simp

theorem c10_witness :
    ((run ([reqA, reqB].map Event.submit ++
      [Event.timerFire 0, Event.transportResolve 0 ["respA"]])).callers.get?
        1).map Caller.outcome =
      some (some (Outcome.resolved none)) ∧
    (run ([reqA, reqB].map Event.submit ++
      [Event.timerFire 0, Event.transportResolve 0 ["respA"]])).uncaught =
      [] := by
  refine ⟨(c10_short_response_resolves_undefined (batchKey reqA)
      [reqA, reqB] ["respA"] 1 (by decide) (by decide) (by decide)
      (by decide) (by decide) (by decide)).1,
    (c10_short_response_resolves_undefined (batchKey reqA)
      [reqA, reqB] ["respA"] 1 (by decide) (by decide) (by decide)
      (by decide) (by decide) (by decide)).2.1⟩

set_option maxRecDepth 200000 in
/-- Counterexample to C10 as stated: in the size-triggered batch of 20 with
an empty response list every caller's index is out of range, yet callers
0..18 never resolve at all (only caller 19 resolves with `undefined`), and
an uncaught TypeError is raised by the orphaned timer. -/
theorem c10_counterexample :
    (run (List.replicate 20 (Event.submit reqT) ++
      [Event.timerFire 0,
       Event.transportResolve 0 ([] : List Resp)])).callers.map
        Caller.outcome =
      List.replicate 19 none ++ [some (Outcome.resolved none)] ∧
    (run (List.replicate 20 (Event.submit reqT) ++
      [Event.timerFire 0,
       Event.transportResolve 0 ([] : List Resp)])).uncaught =
      [JSError.typeError (jsonStringifyPair "g1" "POST")] := by
  decide

set_option maxRecDepth 200000 in
/-- C3 shows a code bug: after the size-triggered flush of a 20-request
batch, the window timer is still pending (`clearTimeout` was handed the
batch Promise instead of a timer id, so it cancelled nothing); when the
orphaned timer later fires, the flush attempt against the already-removed
key is not a no-op — it raises an uncaught TypeError — although no second
combined request is issued. -/
theorem c3_orphaned_timer_throws :
    (run (List.replicate 20 (Event.submit reqT))).timers =
      [Timer.mk 0 0 (jsonStringifyPair "g1" "POST")] ∧
    (run (List.replicate 20 (Event.submit reqT))).sent.length = 1 ∧
    (run (List.replicate 20 (Event.submit reqT) ++
      [Event.timerFire 0])).uncaught =
      [JSError.typeError (jsonStringifyPair "g1" "POST")] ∧
    (run (List.replicate 20 (Event.submit reqT) ++
      [Event.timerFire 0])).sent.length = 1 := by
  decide

end BatchMw
